import Mathlib

/-!
Verification of `bvbrc_docking/utils.py`, a utility layer for a molecular
docking pipeline.  The Python module is glue code: configuration-model
serialization, path validation, a residue-code table, subprocess invocation
with abort-on-failure semantics, and small string helpers.

The shallow embedding below models:
  * JSON/YAML documents as an inductive `JVal` (the external `json`/`yaml`
    libraries transport a document faithfully, so file contents are modelled
    at the document level);
  * the configuration model as a record with the six whitelisted fields,
    nested under a `dock` key;
  * effects (printing, spawning a child process, `sys.exit`) as explicit
    event traces and outcome values;
  * the process-wide RDKit logger toggle as explicit state passing;
  * path-name manipulation (`os.path.basename`, `os.path.dirname`, Python
    slice `[:-n]`) as character-list functions, matching the POSIX
    implementations used by the source.
-/

namespace DockUtils

/-- Values of a JSON (or safe-YAML) document; object fields keep their order. -/
inductive JVal where
  | null
  | bool (b : Bool)
  | num (n : Int)
  | str (s : String)
  | arr (xs : List JVal)
  | obj (fields : List (String × JVal))

/-- Modelled from the spec: the concrete configuration model class is not under
`src/`; its `dock` section carries the six whitelisted fields of
`BaseModel.from_args` (spec sections 3 and 6), each optional. -/
structure DockConf where
  name : Option String
  receptor_pdb : Option String
  drug_dbs : Option String
  diffdock_dir : Option String
  output_dir : Option String
  top_n : Option Int
deriving DecidableEq, Repr

/-- Modelled from the spec: the full configuration object, one level of
nesting under a `dock` key. -/
structure Conf where
  dock : DockConf
deriving DecidableEq, Repr

/-- Encoding of an optional string field the way pydantic's `dict()` does:
`None` becomes JSON `null`. -/
def jstr : Option String → JVal
  | none => JVal.null
  | some s => JVal.str s

/-- Encoding of an optional integer field; `None` becomes JSON `null`. -/
def jint : Option Int → JVal
  | none => JVal.null
  | some n => JVal.num n

/-- Field map of the `dock` section, in declaration order (pydantic `dict()`). -/
def dictDock (d : DockConf) : List (String × JVal) :=
  [("name", jstr d.name),
   ("receptor_pdb", jstr d.receptor_pdb),
   ("drug_dbs", jstr d.drug_dbs),
   ("diffdock_dir", jstr d.diffdock_dir),
   ("output_dir", jstr d.output_dir),
   ("top_n", jint d.top_n)]

/-- Reading an optional string field from a field map: missing or `null`
yields `none`, a string yields `some`, anything else is a validation error. -/
def getOptStr (fields : List (String × JVal)) (k : String) :
    Except String (Option String) :=
  match fields.lookup k with
  | none => Except.ok none
  | some JVal.null => Except.ok none
  | some (JVal.str s) => Except.ok (some s)
  | some _ => Except.error k

/-- Reading an optional integer field from a field map. -/
def getOptInt (fields : List (String × JVal)) (k : String) :
    Except String (Option Int) :=
  match fields.lookup k with
  | none => Except.ok none
  | some JVal.null => Except.ok none
  | some (JVal.num n) => Except.ok (some n)
  | some _ => Except.error k

/-- Modelled from the spec: pydantic construction of the `dock` section from a
field map (`cls(**data)` validation of the inner record). -/
def clsDock (fields : List (String × JVal)) : Except String DockConf := do
  let name ← getOptStr fields "name"
  let receptor_pdb ← getOptStr fields "receptor_pdb"
  let drug_dbs ← getOptStr fields "drug_dbs"
  let diffdock_dir ← getOptStr fields "diffdock_dir"
  let output_dir ← getOptStr fields "output_dir"
  let top_n ← getOptInt fields "top_n"
  return ⟨name, receptor_pdb, drug_dbs, diffdock_dir, output_dir, top_n⟩

/-- Modelled from the spec: pydantic construction `cls(**data)` of the full
configuration; the `dock` key is required and must hold an object. -/
def cls (data : List (String × JVal)) : Except String Conf :=
  match data.lookup "dock" with
  | some (JVal.obj fs) => (clsDock fs).map Conf.mk
  | some _ => Except.error "dock"
  | none => Except.error "dock"

/-- Pydantic field map of the whole configuration (`self.dict()`). -/
def dict (c : Conf) : List (String × JVal) :=
  [("dock", JVal.obj (dictDock c.dock))]

/-- Embeds `BaseModel.write_json`: `json.dump(self.dict(), fp)`; the written
file holds exactly the document of `self.dict()`. -/
def write_json (c : Conf) : JVal :=
  JVal.obj (dict c)

/-- Embeds `BaseModel.from_json`: `json.load` the file, then `cls(**data)`. -/
def from_json (file : JVal) : Except String Conf :=
  match file with
  | JVal.obj data => cls data
  | _ => Except.error "json"

/-- Embeds `BaseModel.write_yaml`: `yaml.dump(json.loads(self.json()), fp,
sort_keys=False)`; the document equals `self.dict()` and field order is kept. -/
def write_yaml (c : Conf) : JVal :=
  JVal.obj (dict c)

/-- Embeds `BaseModel.from_yaml`: `yaml.safe_load` the file, then
`cls(**raw_data)`. -/
def from_yaml (file : JVal) : Except String Conf :=
  match file with
  | JVal.obj data => cls data
  | _ => Except.error "yaml"

/-- The fixed whitelist iterated by `BaseModel.from_args`. -/
def dockKeys : List String :=
  ["name", "receptor_pdb", "drug_dbs", "diffdock_dir", "output_dir", "top_n"]

/-- Loop body of `BaseModel.from_args`: `v[key] = adict[key]` for every
whitelisted `key` present in the argument set, in whitelist order. -/
def dock_args (args : List (String × JVal)) : List (String × JVal) :=
  dockKeys.filterMap (fun k => (args.lookup k).map (fun val => (k, val)))

/-- Embeds `BaseModel.from_args`: build `raw = {"dock": v}` from the argument
set and construct the model with `cls(**raw)`. -/
def from_args (args : List (String × JVal)) : Except String Conf :=
  cls [("dock", JVal.obj (dock_args args))]

/-- Embeds the `three_to_one` table, in source order. -/
def three_to_one : List (String × String) :=
  [("ALA", "A"),
   ("ARG", "R"),
   ("ASN", "N"),
   ("ASP", "D"),
   ("CYS", "C"),
   ("GLN", "Q"),
   ("GLU", "E"),
   ("GLY", "G"),
   ("HIS", "H"),
   ("ILE", "I"),
   ("LEU", "L"),
   ("LYS", "K"),
   ("MET", "M"),
   ("MSE", "M"),
   ("PHE", "F"),
   ("PRO", "P"),
   ("PYL", "O"),
   ("SER", "S"),
   ("SEC", "U"),
   ("THR", "T"),
   ("TRP", "W"),
   ("TYR", "Y"),
   ("VAL", "V"),
   ("ASX", "B"),
   ("GLX", "Z"),
   ("XAA", "X"),
   ("XLE", "J")]

/-- Loop body of `pdb2seq`: `three_to_one[resname]` when the name is in the
table, `"-"` otherwise. -/
def resOne (r : String) : String :=
  match three_to_one.find? (fun p => p.1 == r) with
  | some p => p.2
  | none => "-"

/-- Embeds `pdb2seq` after the external structure load: fold over the protein
residue names in structural order, appending each code to `seq`. -/
def pdb2seq (residues : List String) : String :=
  residues.foldl (fun seq r => seq ++ resOne r) ""

/-- Python slice `s[:-n]`: the string without its last `n` characters
(empty when `n` is at least the length). -/
def pyDropLast (s : String) (n : Nat) : String :=
  String.mk (s.data.take (s.data.length - n))

/-- Embeds `os.path.basename` (POSIX): the part after the last `/`. -/
def basename (p : String) : String :=
  String.mk ((p.data.reverse.takeWhile (fun c => c != '/')).reverse)

/-- Embeds `os.path.dirname` (POSIX): the part up to and including the last
`/`, with trailing slashes stripped unless the result is all slashes. -/
def dirname (p : String) : String :=
  let head := String.mk ((p.data.reverse.dropWhile (fun c => c != '/')).reverse)
  if !head.data.isEmpty && head.data.any (fun c => c != '/') then
    String.mk ((head.data.reverse.dropWhile (fun c => c == '/')).reverse)
  else head

/-- Embeds `get_pdblabel`: `os.path.basename(pdb_file)[:-4]`. -/
def get_pdblabel (pdb_file : String) : String :=
  pyDropLast (basename pdb_file) 4

/-- Embeds the output-path logic of `comb_pdb`: when `comp_pdb` is `None` it is
derived as `f"{os.path.dirname(lig_pdb)}/{label(prot)}_{label(lig)}.pdb"`; the
function returns `comp_pdb` (the merge itself is external). -/
def comb_pdb (prot_pdb lig_pdb : String) (comp_pdb : Option String) : String :=
  match comp_pdb with
  | some c => c
  | none =>
    dirname lig_pdb ++ "/" ++ get_pdblabel prot_pdb ++ "_"
      ++ get_pdblabel lig_pdb ++ ".pdb"

/-- Output sinks visible to `run_and_save`: the caller's sink (`output_file`,
defaulting to standard output) and the host's standard error. -/
inductive Sink where
  | outputFile
  | stdErr
deriving DecidableEq, Repr

/-- Observable effects of the subprocess runner, in order. -/
inductive Event where
  | msg (sink : Sink) (text : String)
  | execCmd (cmd : String) (shell : Bool) (mergeErrIntoOut : Bool)
deriving DecidableEq, Repr

/-- Popen handle after `wait()`: the command line and its exit code. -/
structure Popen where
  args : String
  returncode : Int
deriving DecidableEq, Repr

/-- Outcome of `run_and_save`: either the whole host process terminates with
an exit status, or the completed-process handle is returned. -/
inductive RunResult where
  | exit (code : Nat)
  | ok (p : Popen)
deriving DecidableEq, Repr

/-- Embeds `run_and_save`, with the child's exit code `rc` as input: echo the
command to the sink, spawn via the shell with stderr merged into stdout, wait,
and on non-zero exit print a diagnostic to stderr and `sys.exit(1)`. -/
def run_and_save (cmd : String) (rc : Int) : List Event × RunResult :=
  let pre := [Event.msg Sink.outputFile cmd, Event.execCmd cmd true true]
  if rc != 0 then
    (pre ++ [Event.msg Sink.stdErr ("Failure running " ++ cmd)],
     RunResult.exit 1)
  else
    (pre, RunResult.ok ⟨cmd, rc⟩)

/-- Embeds `sdf2pdb`, with the converter's exit code `rc`, the size in bytes of
the output file it wrote, and its captured stderr text as inputs.  Returns the
printed diagnostics together with either `sys.exit` code 1 or the output path. -/
def sdf2pdb (sdf_file : String) (pdbOpt : Option String) (rc : Int)
    (outSize : Nat) (err : String) : List String × Except Nat String :=
  let pdb_file := pdbOpt.getD (pyDropLast sdf_file 3 ++ "pdb")
  if rc != 0 then
    (["Failure rc=f" ++ toString rc ++ " converting f" ++ sdf_file
        ++ " to f" ++ pdb_file ++ ": " ++ err],
     Except.error 1)
  else if outSize = 0 then
    (["Failure (output is empty) converting f" ++ sdf_file ++ " to f"
        ++ pdb_file ++ " err=" ++ err],
     Except.error 1)
  else
    ([], Except.ok pdb_file)

/-- Process-wide RDKit logger state for the `rdApp.error` channel. -/
structure RDLoggerState where
  errorLogEnabled : Bool
deriving DecidableEq, Repr

/-- Embeds `RDLogger.DisableLog("rdApp.error")`. -/
def rdDisableLog (_st : RDLoggerState) : RDLoggerState :=
  ⟨false⟩

/-- Embeds `RDLogger.EnableLog("rdApp.error")`. -/
def rdEnableLog (_st : RDLoggerState) : RDLoggerState :=
  ⟨true⟩

/-- Embeds `validate_smiles`, with the result of `Chem.MolFromSmiles` being
non-null as the input `parsesToMol`, threading the logger state explicitly. -/
def validate_smiles (parsesToMol : Bool) (st : RDLoggerState) :
    Bool × RDLoggerState :=
  let is_valid := false
  let st1 := rdDisableLog st
  let is_valid := if parsesToMol then true else is_valid
  let st2 := rdEnableLog st1
  (is_valid, st2)

/-- Filesystem abstraction for the path validator: `Path.resolve` and
`Path.exists`, with resolution preserving existence (a canonicalised path
exists exactly when the original does). -/
structure FS where
  resolve : String → String
  fsExists : String → Bool
  resolve_exists : ∀ p, fsExists (resolve p) = fsExists p

/-- Embeds `_resolve_path_exists`: `None` passes through; otherwise resolve,
raise `FileNotFoundError(p)` when the resolved path does not exist, else
return the resolved path. -/
def _resolve_path_exists (fs : FS) (value : Option String) :
    Except String (Option String) :=
  match value with
  | none => Except.ok none
  | some v =>
    let p := fs.resolve v
    if fs.fsExists p then Except.ok (some p) else Except.error p

/-- C1: `run_and_save` first echoes the command line to the output sink and
then executes it via the shell with stderr merged into stdout; on a non-zero
child exit code it prints a failure diagnostic to standard error and the host
process terminates with exit status 1; on exit code 0 it returns the
completed-process handle without terminating. -/
theorem run_and_save_spec (cmd : String) (rc : Int) :
    (run_and_save cmd rc).1.take 2
      = [Event.msg Sink.outputFile cmd, Event.execCmd cmd true true]
    ∧ (rc ≠ 0 → (run_and_save cmd rc).2 = RunResult.exit 1
        ∧ Event.msg Sink.stdErr ("Failure running " ++ cmd)
            ∈ (run_and_save cmd rc).1)
    ∧ (rc = 0 → (run_and_save cmd rc).2 = RunResult.ok ⟨cmd, rc⟩) := by
  by_cases h : rc = 0
  · simp [run_and_save, h]
  · simp [run_and_save, h]

/-- C1 witness: a command exiting 1 aborts the host process after a stderr
diagnostic; a command exiting 0 yields the completed-process handle. -/
theorem run_and_save_spec_witness :
    ((run_and_save "ls" 1).2 = RunResult.exit 1
      ∧ Event.msg Sink.stdErr ("Failure running " ++ "ls")
          ∈ (run_and_save "ls" 1).1)
    ∧ (run_and_save "sync" 0).2 = RunResult.ok ⟨"sync", 0⟩ :=
  ⟨(run_and_save_spec "ls" 1).2.1 (by decide),
   (run_and_save_spec "sync" 0).2.2 rfl⟩

/-- C2: `sdf2pdb` terminates the host process (exit status 1) exactly when the
converter exits non-zero or the output file it produced is empty, printing one
failure diagnostic in either situation; when the converter exits 0 with a
non-empty output file it prints nothing and returns the output file path. -/
theorem sdf2pdb_spec (sdf : String) (pdbOpt : Option String) (rc : Int)
    (outSize : Nat) (err : String) :
    ((sdf2pdb sdf pdbOpt rc outSize err).2 = Except.error 1
      ↔ (rc ≠ 0 ∨ outSize = 0))
    ∧ ((sdf2pdb sdf pdbOpt rc outSize err).2 = Except.error 1 →
        (sdf2pdb sdf pdbOpt rc outSize err).1.length = 1)
    ∧ (rc = 0 → outSize ≠ 0 →
        (sdf2pdb sdf pdbOpt rc outSize err)
          = ([], Except.ok (pdbOpt.getD (pyDropLast sdf 3 ++ "pdb")))) := by
  by_cases h : rc = 0
  · by_cases h2 : outSize = 0
    · simp [sdf2pdb, h, h2]
    · simp [sdf2pdb, h, h2]
  · simp [sdf2pdb, h]

/-- C2 witness: a converter exiting 0 with an empty output file aborts the
process; exiting 0 with a 7-byte output file returns the derived path. -/
theorem sdf2pdb_spec_witness :
    ((sdf2pdb "lig.sdf" none 0 0 "e").2 = Except.error 1
      ↔ ((0 : Int) ≠ 0 ∨ (0 : Nat) = 0))
    ∧ (sdf2pdb "lig.sdf" none 0 7 "e")
        = ([], Except.ok (Option.getD none (pyDropLast "lig.sdf" 3 ++ "pdb"))) :=
  ⟨(sdf2pdb_spec "lig.sdf" none 0 0 "e").1,
   (sdf2pdb_spec "lig.sdf" none 0 7 "e").2.2 rfl (by decide)⟩

/-- C3 counterexample: when the error-level diagnostic channel is already
disabled before the call, `validate_smiles` leaves it enabled afterwards, so
the suppression state is not restored to its prior value. -/
theorem validate_smiles_not_restored :
    (validate_smiles true ⟨false⟩).2.errorLogEnabled ≠ (false : Bool) := by
  decide

/-- C3 amended: `validate_smiles` returns true exactly when the candidate
parses to a non-null molecule and never raises; it disables the error-level
diagnostic channel before parsing and unconditionally re-enables it afterwards
by a second explicit call (no scoped guard), so a prior disabled state is not
restored. -/
theorem validate_smiles_spec (parsesToMol : Bool) (st : RDLoggerState) :
    validate_smiles parsesToMol st = (parsesToMol, ⟨true⟩) := by
  cases parsesToMol <;> rfl

/-- C8: the path-exists validator passes `None` through as `None`; on a path
whose canonical form does not exist it fails with a not-found error carrying
that path; on an existing path it returns the canonical absolute form. -/
theorem resolve_path_exists_spec (fs : FS) (v : String) :
    _resolve_path_exists fs none = Except.ok none
    ∧ (fs.fsExists v = false →
        _resolve_path_exists fs (some v) = Except.error (fs.resolve v))
    ∧ (fs.fsExists v = true →
        _resolve_path_exists fs (some v) = Except.ok (some (fs.resolve v))) := by
  refine ⟨rfl, ?_, ?_⟩ <;> intro h <;>
    simp [_resolve_path_exists, fs.resolve_exists, h]

/-- Concrete filesystem with a single existing path, for the C8 witness. -/
def fs0 : FS :=
  ⟨fun p => p, fun p => p == "/etc", fun _ => rfl⟩

/-- C8 witness: on the one existing path the validator returns its resolved
form; on a missing path it fails with that path. -/
theorem resolve_path_exists_spec_witness :
    _resolve_path_exists fs0 (some "/etc") = Except.ok (some (fs0.resolve "/etc"))
    ∧ _resolve_path_exists fs0 (some "/nope") = Except.error (fs0.resolve "/nope") :=
  ⟨(resolve_path_exists_spec fs0 "/etc").2.2 (by decide),
   (resolve_path_exists_spec fs0 "/nope").2.1 (by decide)⟩

/-- C4: a configuration round-trips losslessly: loading the JSON file written
by `write_json` and the YAML file written by `write_yaml` both reconstruct the
original value, and the YAML document keeps the declared field order. -/
theorem roundtrip_spec (c : Conf) :
    from_json (write_json c) = Except.ok c
    ∧ from_yaml (write_yaml c) = Except.ok c
    ∧ (write_yaml c) = JVal.obj [("dock", JVal.obj (dictDock c.dock))]
    ∧ (dictDock c.dock).map Prod.fst = dockKeys := by
  obtain ⟨⟨a, b, d, e, f, g⟩⟩ := c
  refine ⟨?_, ?_, rfl, rfl⟩ <;>
    cases a <;> cases b <;> cases d <;> cases e <;> cases f <;> cases g <;> rfl

/-- Lookup in the whitelist-filtered argument map misses every key outside the
iterated key list. -/
lemma lookup_filtered_not_mem (keys : List String)
    (args : List (String × JVal)) (k : String) (hk : k ∉ keys) :
    (keys.filterMap
      (fun k2 => (args.lookup k2).map (fun val => (k2, val)))).lookup k
      = none := by
  induction keys with
  | nil => rfl
  | cons k0 t ih =>
    have hne : k ≠ k0 := fun h => hk (h ▸ List.mem_cons_self k0 t)
    have hkt : k ∉ t := fun h => hk (List.mem_cons_of_mem k0 h)
    cases h0 : args.lookup k0 with
    | none => simpa [List.filterMap_cons, h0] using ih hkt
    | some v =>
      have hb : (k == k0) = false := beq_eq_false_iff_ne.mpr hne
      simpa [List.filterMap_cons, h0, List.lookup, hb] using ih hkt

/-- Lookup in the whitelist-filtered argument map agrees with lookup in the
argument set on every iterated key, provided the key list has no duplicates. -/
lemma lookup_filtered_mem (keys : List String)
    (args : List (String × JVal)) (k : String) (hnd : keys.Nodup)
    (hk : k ∈ keys) :
    (keys.filterMap
      (fun k2 => (args.lookup k2).map (fun val => (k2, val)))).lookup k
      = args.lookup k := by
  induction keys with
  | nil => cases hk
  | cons k0 t ih =>
    have hk0 : k0 ∉ t := (List.nodup_cons.mp hnd).1
    have hndt : t.Nodup := (List.nodup_cons.mp hnd).2
    rcases List.mem_cons.mp hk with heq | hmem
    · subst heq
      cases h0 : args.lookup k with
      | none =>
        simpa [List.filterMap_cons, h0]
          using lookup_filtered_not_mem t args k hk0
      | some v => simp [List.filterMap_cons, h0, List.lookup]
    · have hne : k ≠ k0 := fun h => hk0 (h ▸ hmem)
      cases h0 : args.lookup k0 with
      | none => simpa [List.filterMap_cons, h0] using ih hndt hmem
      | some v =>
        have hb : (k == k0) = false := beq_eq_false_iff_ne.mpr hne
        simpa [List.filterMap_cons, h0, List.lookup, hb] using ih hndt hmem

/-- C5: `from_args` extracts exactly the whitelisted field names present in the
argument set (same values, in whitelist order), nests them under the `dock`
key, omits absent and non-whitelisted fields entirely, and on an argument bag
holding only `name="foo"` yields a configuration whose dock section has
`name = "foo"` and the other five fields unpopulated. -/
theorem from_args_spec :
    (∀ (args : List (String × JVal)) (k : String), k ∈ dockKeys →
      (dock_args args).lookup k = args.lookup k)
    ∧ (∀ (args : List (String × JVal)) (k : String), k ∉ dockKeys →
      (dock_args args).lookup k = none)
    ∧ from_args [("name", JVal.str "foo")]
        = Except.ok ⟨⟨some "foo", none, none, none, none, none⟩⟩ := by
  refine ⟨?_, ?_, rfl⟩
  · intro args k hk
    exact lookup_filtered_mem dockKeys args k (by decide) hk
  · intro args k hk
    exact lookup_filtered_not_mem dockKeys args k hk

/-- C5 witness: on the one-field argument bag, the filtered map carries `name`
through unchanged and holds nothing under a non-whitelisted key. -/
theorem from_args_spec_witness :
    (dock_args [("name", JVal.str "foo")]).lookup "name"
      = ([("name", JVal.str "foo")] : List (String × JVal)).lookup "name"
    ∧ (dock_args [("name", JVal.str "foo")]).lookup "verbose" = none :=
  ⟨from_args_spec.1 [("name", JVal.str "foo")] "name" (by decide),
   from_args_spec.2.1 [("name", JVal.str "foo")] "verbose" (by decide)⟩

/-- C6 counterexample: the residue code table holds 27 three-letter codes, not
26 (its 27 distinct keys map onto 26 distinct one-letter codes, `MET` and
`MSE` sharing `M`). -/
theorem three_to_one_count_counterexample :
    (three_to_one.map Prod.fst).length ≠ 26 := by
  decide

/-- C6 amended: the residue code table is a fixed constant mapping of exactly
27 distinct three-letter amino-acid codes (covering 26 distinct one-letter
codes) to one-letter codes, including non-standard residues such as `MSE`;
being a plain constant, no operation of the module mutates it. -/
theorem three_to_one_spec :
    three_to_one.length = 27
    ∧ (three_to_one.map Prod.fst).Nodup
    ∧ (∀ p ∈ three_to_one, p.1.length = 3 ∧ p.2.length = 1)
    ∧ ("MSE", "M") ∈ three_to_one
    ∧ (three_to_one.map Prod.snd).dedup.length = 26 := by
  decide

/-- C6 witness: the non-standard entry for selenomethionine has a three-letter
key and a one-letter value. -/
theorem three_to_one_spec_witness :
    ("MSE" : String).length = 3 ∧ ("M" : String).length = 1 :=
  three_to_one_spec.2.2.1 ("MSE", "M") (by decide)

/-- Characters appended per residue always number exactly one. -/
lemma resOne_length (r : String) : (resOne r).data.length = 1 := by
  unfold resOne
  cases h : three_to_one.find? (fun p => p.1 == r) with
  | none => rfl
  | some p =>
    have hmem : p ∈ three_to_one := List.mem_of_find?_eq_some h
    have hall : ∀ q ∈ three_to_one, q.2.data.length = 1 := by decide
    exact hall p hmem

/-- Folding the residue loop from any accumulator adds one character per
residue. -/
lemma pdb2seq_aux (rs : List String) (acc : String) :
    (rs.foldl (fun seq r => seq ++ resOne r) acc).data.length
      = acc.data.length + rs.length := by
  induction rs generalizing acc with
  | nil => simp
  | cons r t ih =>
    rw [List.foldl_cons, ih]
    show (acc.data ++ (resOne r).data).length + t.length = _
    simp [resOne_length r]
    omega

/-- In an association list with distinct keys, `find?` on a key returns
exactly the member pair with that key. -/
lemma find_of_mem_nodup (l : List (String × String))
    (hnd : (l.map Prod.fst).Nodup) (r one : String) (hmem : (r, one) ∈ l) :
    l.find? (fun p => p.1 == r) = some (r, one) := by
  induction l with
  | nil => cases hmem
  | cons hd t ih =>
    have hhd : hd.1 ∉ t.map Prod.fst := (List.nodup_cons.mp hnd).1
    have hndt : (t.map Prod.fst).Nodup := (List.nodup_cons.mp hnd).2
    rcases List.mem_cons.mp hmem with heq | hmem2
    · subst heq
      simp [List.find?]
    · have hr : r ∈ t.map Prod.fst :=
        List.mem_map.mpr ⟨(r, one), hmem2, rfl⟩
      have hne : hd.1 ≠ r := fun h => hhd (h ▸ hr)
      have hb : (hd.1 == r) = false := beq_eq_false_iff_ne.mpr hne
      simpa [List.find?, hb] using ih hndt hmem2

/-- C7: `pdb2seq` returns one character per protein residue (same length as
the residue count); a residue name in the table contributes its one-letter
code, a name outside the table contributes the `-` placeholder, and on the
residues `["ALA", "GLY", "XYZ"]` in that order the result is `"AG-"`. -/
theorem pdb2seq_spec :
    (∀ rs : List String, (pdb2seq rs).length = rs.length)
    ∧ (∀ r one : String, (r, one) ∈ three_to_one → resOne r = one)
    ∧ (∀ r : String, r ∉ three_to_one.map Prod.fst → resOne r = "-")
    ∧ pdb2seq ["ALA", "GLY", "XYZ"] = "AG-" := by
  refine ⟨?_, ?_, ?_, rfl⟩
  · intro rs
    have h := pdb2seq_aux rs ""
    have h0 : ("" : String).data.length = 0 := rfl
    rw [h0, Nat.zero_add] at h
    exact h
  · intro r one hmem
    have hnd : (three_to_one.map Prod.fst).Nodup := by decide
    unfold resOne
    rw [find_of_mem_nodup three_to_one hnd r one hmem]
  · intro r hr
    unfold resOne
    rw [List.find?_eq_none.mpr ?_]
    intro p hp
    have : p.1 ≠ r := fun h => hr (h ▸ List.mem_map.mpr ⟨p, hp, rfl⟩)
    simpa using this

/-- C7 witness: the table entry for `MSE` maps to `M`, and the unknown residue
name `XYZ` maps to the placeholder. -/
theorem pdb2seq_spec_witness :
    resOne "MSE" = "M" ∧ resOne "XYZ" = "-" :=
  ⟨pdb2seq_spec.2.1 "MSE" "M" (by decide),
   pdb2seq_spec.2.2.1 "XYZ" (by decide)⟩

/-- Appending a string to another concatenates their character lists. -/
lemma string_data_append (s t : String) : (s ++ t).data = s.data ++ t.data :=
  rfl

/-- A string is determined by its character list. -/
lemma string_eq_of_data (s t : String) (h : s.data = t.data) : s = t :=
  congrArg String.mk h

/-- Characters are taken up to, and not including, a separator placed after a
separator-free block. -/
lemma takeWhile_append_slash (l1 l2 : List Char) (h : ∀ c ∈ l1, c ≠ '/') :
    (l1 ++ '/' :: l2).takeWhile (fun c => c != '/') = l1 := by
  induction l1 with
  | nil => simp [List.takeWhile_cons]
  | cons c t ih =>
    have hc : (c != '/') = true := bne_iff_ne.mpr (h c (List.mem_cons_self c t))
    have ht : ∀ c2 ∈ t, c2 ≠ '/' := fun c2 hc2 => h c2 (List.mem_cons_of_mem c hc2)
    simp [List.takeWhile_cons, hc, ih ht]

/-- Basename of a path built from a directory, a separator and a slash-free
filename is that filename. -/
lemma basename_append (dir name : String) (h : ∀ c ∈ name.data, c ≠ '/') :
    basename (dir ++ "/" ++ name) = name := by
  unfold basename
  apply string_eq_of_data
  have hrev : (dir ++ "/" ++ name).data.reverse
      = name.data.reverse ++ '/' :: dir.data.reverse := by
    simp [string_data_append]
  rw [hrev, takeWhile_append_slash _ _
      (fun c hc => h c (List.mem_reverse.mp hc))]
  simp

/-- C9: `get_pdblabel` strips the directory part and then the last four
characters, whatever they are: on a separator-free filename appended to any
directory it returns the filename minus its final four characters;
`get_pdblabel("/a/b/protein.pdb")` is `"protein"`, and the strip is naive
(`"dir/file.cif"` also loses its last four characters). -/
theorem get_pdblabel_spec :
    (∀ dir name : String, (∀ c ∈ name.data, c ≠ '/') →
      get_pdblabel (dir ++ "/" ++ name) = pyDropLast name 4)
    ∧ get_pdblabel "/a/b/protein.pdb" = "protein"
    ∧ get_pdblabel "dir/file.cif" = "file" := by
  refine ⟨?_, by decide, by decide⟩
  intro dir name h
  unfold get_pdblabel
  rw [basename_append dir name h]

/-- C9 witness: the general strip law evaluated on `/a/b` and `protein.pdb`. -/
theorem get_pdblabel_spec_witness :
    get_pdblabel ("/a/b" ++ "/" ++ "protein.pdb") = pyDropLast "protein.pdb" 4 :=
  get_pdblabel_spec.1 "/a/b" "protein.pdb" (by decide)

/-- Dirname of a slash-free string is the empty string. -/
lemma dirname_no_slash (p : String) (h : ∀ c ∈ p.data, c ≠ '/') :
    dirname p = "" := by
  unfold dirname
  have hdrop : p.data.reverse.dropWhile (fun c => c != '/') = [] := by
    rw [List.dropWhile_eq_nil_iff]
    intro c hc
    exact bne_iff_ne.mpr (h c (List.mem_reverse.mp hc))
  simp [hdrop]

/-- C10: when the ligand path is a bare filename (no directory component) and
no output path is given, `comb_pdb` derives the default output path with an
empty dirname, so the path is `"/"` followed by the two labels and begins with
the root separator. -/
theorem comb_pdb_default_root (prot lig : String)
    (h : ∀ c ∈ lig.data, c ≠ '/') :
    comb_pdb prot lig none
      = "/" ++ (get_pdblabel prot ++ "_" ++ get_pdblabel lig ++ ".pdb")
    ∧ (comb_pdb prot lig none).data.head? = some '/' := by
  have hd := dirname_no_slash lig h
  have hdata : (comb_pdb prot lig none).data
      = '/' :: (get_pdblabel prot ++ "_" ++ get_pdblabel lig ++ ".pdb").data := by
    simp [comb_pdb, hd, string_data_append]
  constructor
  · apply string_eq_of_data
    rw [hdata]
    simp [string_data_append]
  · rw [hdata]
    rfl

/-- C10 witness: with ligand file `lig.pdb` (no directory) and protein
`/a/prot.pdb`, the derived default output path is `/prot_lig.pdb`, a file at
the filesystem root. -/
theorem comb_pdb_default_root_witness :
    comb_pdb "/a/prot.pdb" "lig.pdb" none
      = "/" ++ (get_pdblabel "/a/prot.pdb" ++ "_" ++ get_pdblabel "lig.pdb"
          ++ ".pdb")
    ∧ (comb_pdb "/a/prot.pdb" "lig.pdb" none).data.head? = some '/' :=
  comb_pdb_default_root "/a/prot.pdb" "lig.pdb" (by decide)

end DockUtils
